import Mathlib

/-!
Shallow embedding of `src/moex_bonds.py`.

The embedded code is the cash-flow-frame construction inside `moex_bond_info`
(lines 154-176: the three raw event streams are outer-merged on `event_date`,
missing cells are filled with the placeholder dash, and the result is sorted by
date) and the yield computation `moex_bond_yield` (lines 182-216: the dash is
replaced back by missing values, the schedule is validated, face value and
accrued interest are parsed from the information frame, events are filtered to
those after the purchase date, and the date/amount vectors are handed to the
external root-finder `pyxirr.xirr` with the ACT/ACT ISDA day count).

Dates travel as ISO `YYYY-MM-DD` strings inside the builder (where merge keys
and the sort order are string equality and string order) and as pandas
timestamps inside the solver (where comparison is by absolute day ordinal);
both views are represented by the `Date` structure below with the two
corresponding orders.  Numeric cells are `ℚ`, missing cells are `Option`/`Fld`.
The external root-finder and its day-count helper are not part of the
repository; they are modelled after the specification of the solver: a payment
validation requiring at least one positive and one negative amount, and a
returned rate that zeroes the discounted net present value.
-/

namespace MoexBonds

/-- Calendar date as carried by the ISS feed (ISO `YYYY-MM-DD` strings) and by
pandas timestamps after `pd.to_datetime`. -/
structure Date where
  year : Int
  month : Nat
  day : Nat
deriving DecidableEq, Repr

/-- Gregorian leap-year rule used by the pandas/pyxirr calendar. -/
def isLeap (y : Int) : Bool :=
  (y % 4 == 0 && y % 100 != 0) || y % 400 == 0

/-- Actual length of calendar year `y`. -/
def daysInYear (y : Int) : Int := if isLeap y then 366 else 365

/-- Cumulative day count before the first day of month `m` in a non-leap year. -/
def cumDaysBeforeMonth (m : Nat) : Int :=
  match m with
  | 1 => 0 | 2 => 31 | 3 => 59 | 4 => 90 | 5 => 120 | 6 => 151
  | 7 => 181 | 8 => 212 | 9 => 243 | 10 => 273 | 11 => 304 | _ => 334

/-- Day-of-year of a date, 1-based. -/
def Date.doy (d : Date) : Int :=
  cumDaysBeforeMonth d.month + d.day +
    (if isLeap d.year && decide (2 < d.month) then 1 else 0)

/-- Days in all years strictly before `y` (proleptic Gregorian).  The divisors
are positive, so Lean's integer division agrees with Python's floor division
here. -/
def daysBeforeYear (y : Int) : Int :=
  365 * (y - 1) + (y - 1) / 4 - (y - 1) / 100 + (y - 1) / 400

/-- Absolute day ordinal of a date; pandas timestamps compare by this value. -/
def Date.ord (d : Date) : Int := daysBeforeYear d.year + d.doy

/-- Timestamp comparison `a < b`, as used by `df_cf['event_date'] > purchase_date`
on line 208 after the `pd.to_datetime` conversion of line 207. -/
def Date.ltb (a b : Date) : Bool := decide (a.ord < b.ord)

/-- ISO-string comparison `a ≤ b` used by `sort_values(by='event_date')` on line
175, where `event_date` is still a `YYYY-MM-DD` string: lexicographic on
(year, month, day). -/
def Date.leb (a b : Date) : Bool :=
  decide (a.year < b.year) ||
    (a.year == b.year && (decide (a.month < b.month) ||
      (a.month == b.month && decide (a.day ≤ b.day))))

/-- Strict version of `Date.leb`. -/
def Date.lexLt (a b : Date) : Bool := a.leb b && !(a == b)

/-- Modelled from the spec: the ACT/ACT ISDA year fraction used by the external
root-finder (`day_count=DayCount.ACT_ACT_ISDA` on line 215, not part of this
repository).  Per the spec it sums, over each calendar year spanned by the
interval, the actual days of the interval falling in that year divided by that
year's actual length; full intermediate years each contribute exactly one. -/
def yearFrac (s e : Date) : ℚ :=
  if s.year = e.year then (e.ord - s.ord : ℚ) / (daysInYear s.year : ℚ)
  else
    ((Date.ord ⟨s.year + 1, 1, 1⟩ - s.ord : ℚ) / (daysInYear s.year : ℚ))
      + ((e.year - s.year - 1 : Int) : ℚ)
      + ((e.ord - Date.ord ⟨e.year, 1, 1⟩ : ℚ) / (daysInYear e.year : ℚ))

/-- A cell of the builder's cash-flow frame after `fillna('–')` on line 174:
either a value or the placeholder dash string. -/
inductive Fld (α : Type) where
  | val (a : α)
  | dash
deriving DecidableEq, Repr

/-- Effect of `replace({'–': None})` (line 194) on one cell: the placeholder
dash becomes a missing value, other values are untouched. -/
def Fld.toOpt {α : Type} : Fld α → Option α
  | .val a => some a
  | .dash => none

/-- One row of the cash-flow frame `df_cf` as returned by `moex_bond_info`
(lines 154-177): the merge of the coupon, amortization and offer streams for a
single date, with missing cells filled with the dash. -/
structure CashFlowRow where
  event_date : Date
  coupon : Fld ℚ
  amt : Fld ℚ
  offer : Fld ℚ
  offer_type : Fld String
deriving DecidableEq, Repr

/-- One row of the solver's working frame after `replace({'–': None})` on line
194. -/
structure SolveRow where
  event_date : Date
  coupon : Option ℚ
  amt : Option ℚ
  offer : Option ℚ
  offer_type : Option String
deriving DecidableEq, Repr

/-- Line 194, `df_cf = df_cf.replace({'–': None})`, applied to one row. -/
def replaceDash (r : CashFlowRow) : SolveRow :=
  ⟨r.event_date, r.coupon.toOpt, r.amt.toOpt, r.offer.toOpt, r.offer_type.toOpt⟩

/-- A value of the `value` column of the information frame `df_nfo`: numeric
text that Python's `float()` parses, or non-numeric text such as the
placeholder dash. -/
inductive NfoVal where
  | num (x : ℚ)
  | txt
deriving DecidableEq, Repr

/-- The instrument-information frame `df_nfo`, keyed by its string index. -/
abbrev NfoDF := List (String × NfoVal)

/-- `float(df_nfo.loc[key, 'value'])` (lines 201-202): `none` when the row is
missing or its text does not parse as a number (both raise in Python and are
re-raised by the `except` block on lines 203-205). -/
def getFloat (df : NfoDF) (key : String) : Option ℚ :=
  match df.find? (fun p => p.1 == key) with
  | some p =>
    match p.2 with
    | .num x => some x
    | .txt => none
  | none => none

/-- Failure outcomes of `moex_bond_yield`: the schedule-validation exception of
line 197, the re-raised parse failure of lines 199-205, and the invalid-payments
error of the external root-finder. -/
inductive Err where
  | cantCalculateYTM
  | missingFaceOrAccrued
  | invalidPayments
deriving DecidableEq, Repr

/-- Line 196, `df_cf['coupon'].isna().any()`. -/
def couponMissing (rows : List SolveRow) : Bool :=
  rows.any (fun r => r.coupon.isNone)

/-- Line 196, `not df_cf[['offer', 'offer_type']].isna().all().all()`. -/
def offersPresent (rows : List SolveRow) : Bool :=
  rows.any (fun r => r.offer.isSome || r.offer_type.isSome)

/-- Line 208, `df_cf = df_cf[df_cf['event_date'] > purchase_date]`. -/
def futureRows (today : Date) (rows : List SolveRow) : List SolveRow :=
  rows.filter (fun r => Date.ltb today r.event_date)

/-- Line 212 for one row: `df_cf[['coupon', 'amt']].sum(axis=1)` adds the coupon
and amortization cells, treating a missing cell as zero. -/
def rowAmount (r : SolveRow) : ℚ := r.coupon.getD 0 + r.amt.getD 0

/-- Lines 194-213 of `moex_bond_yield`: the pandas part of the solve.  It
produces the `dates` and `amounts` vectors handed to `pyxirr.xirr` on line 215,
or the error raised on the way there.  `today` is the value of `date.today()`
read on line 200; `price` is the market price in percent of face value. -/
def moex_bond_yield_pre (today : Date) (df_nfo : NfoDF) (df_cf : List CashFlowRow)
    (price : ℚ) : Except Err (List Date × List ℚ) :=
  let rows := df_cf.map replaceDash
  if couponMissing rows || offersPresent rows then
    .error .cantCalculateYTM
  else
    match getFloat df_nfo "FACEVALUE", getFloat df_nfo "ACCRUEDINT" with
    | some facevalue, some accruedint =>
      let fut := futureRows today rows
      .ok (today :: fut.map (fun r => r.event_date),
           (-price / 100 * facevalue - accruedint) :: fut.map rowAmount)
    | _, _ => .error .missingFaceOrAccrued

/-- Modelled from the spec: the payment validation of the external
`pyxirr.xirr`, which requires at least one positive and at least one negative
amount and otherwise raises `InvalidPaymentsError`. -/
def xirrValid (amounts : List ℚ) : Bool :=
  amounts.any (fun a => decide (0 < a)) && amounts.any (fun a => decide (a < 0))

/-- `moex_bond_yield` up to and including the root-finder's input validation;
this is everything the call does before any iteration of the root search. -/
def moex_bond_yield_checked (today : Date) (df_nfo : NfoDF) (df_cf : List CashFlowRow)
    (price : ℚ) : Except Err (List Date × List ℚ) :=
  match moex_bond_yield_pre today df_nfo df_cf price with
  | .error e => .error e
  | .ok (dates, amounts) =>
    if xirrValid amounts then .ok (dates, amounts) else .error .invalidPayments

/-- Sum of `amount / (1 + r) ^ t` over date/amount pairs, where `t` is the
ACT/ACT ISDA year fraction from `today` to the pair's date. -/
noncomputable def npvAux (today : Date) (r : ℝ) : List (Date × ℚ) → ℝ
  | [] => 0
  | p :: ps => (p.2 : ℝ) * (1 + r) ^ (-((yearFrac today p.1 : ℚ) : ℝ)) + npvAux today r ps

/-- Net present value of the cash-flow vectors at rate `r`, discounted from
`today` with the ACT/ACT ISDA day count — the quantity the external root-finder
drives to zero per the spec. -/
noncomputable def npv (today : Date) (dates : List Date) (amounts : List ℚ) (r : ℝ) : ℝ :=
  npvAux today r (dates.zip amounts)

/-- Python's `round(x, 2)` on line 215: round half to even at two decimals. -/
noncomputable def pyRound2dp (x : ℝ) : ℝ :=
  if x * 100 - ⌊x * 100⌋ < 1 / 2 then (⌊x * 100⌋ : ℝ) / 100
  else if 1 / 2 < x * 100 - ⌊x * 100⌋ then ((⌊x * 100⌋ : ℝ) + 1) / 100
  else (if Even ⌊x * 100⌋ then (⌊x * 100⌋ : ℝ) else (⌊x * 100⌋ : ℝ) + 1) / 100

/-- Full model of one call of `moex_bond_yield` (lines 194-216).  The pandas
stages are the computable `moex_bond_yield_pre`; the external `pyxirr.xirr`
call is modelled from the spec: it validates mixed-sign payments, and when it
returns a rate that rate is greater than `-1` and zeroes the discounted net
present value; the call then returns `round(rate * 100, 2)`.  `out` is the
observable outcome of the call. -/
def ModelYield (today : Date) (df_nfo : NfoDF) (df_cf : List CashFlowRow) (price : ℚ)
    (out : Except Err ℝ) : Prop :=
  match moex_bond_yield_pre today df_nfo df_cf price with
  | .error e => out = .error e
  | .ok (dates, amounts) =>
    if xirrValid amounts then
      ∃ r : ℝ, -1 < r ∧ npv today dates amounts r = 0 ∧ out = .ok (pyRound2dp (r * 100))
    else out = .error .invalidPayments

/-- Pandas `DataFrame.merge(..., how='outer', on=key)` as used on lines 172-173:
each left row pairs with every right row sharing its key, or survives alone with
the right-hand columns missing when no right row matches; right rows whose key
matches no left row are appended with the left-hand columns missing. -/
def outerMergeBy {α β γ : Type} (kx : α → Date) (ky : β → Date)
    (both : α → β → γ) (lonly : α → γ) (ronly : β → γ)
    (xs : List α) (ys : List β) : List γ :=
  xs.flatMap (fun x =>
    match ys.filter (fun y => ky y == kx x) with
    | [] => [lonly x]
    | m :: ms => (m :: ms).map (fun y => both x y))
  ++ (ys.filter (fun y => !xs.any (fun x => kx x == ky y))).map ronly

/-- A record of the coupon stream (lines 154-158): `(coupondate, value)`; the
value may be null in the feed. -/
abbrev CouponRec := Date × Option ℚ

/-- A record of the amortization stream (lines 160-164): `(amortdate, value)`. -/
abbrev AmortRec := Date × Option ℚ

/-- A record of the offer stream (lines 166-170): `(offerdate, price, offertype)`. -/
abbrev OfferRec := Date × Option ℚ × Option String

/-- A row of the intermediate frame after the first merge on line 172. -/
structure CARow where
  event_date : Date
  coupon : Option ℚ
  amt : Option ℚ
deriving DecidableEq, Repr

/-- A row of the merged frame after the second merge on line 173, before
`fillna`. -/
structure MergedRow where
  event_date : Date
  coupon : Option ℚ
  amt : Option ℚ
  offer : Option ℚ
  offer_type : Option String
deriving DecidableEq, Repr

/-- Line 172, `df_coupons.merge(df_amt, how='outer', on='event_date')`. -/
def mergeCouponsAmort (cs : List CouponRec) (amts : List AmortRec) : List CARow :=
  outerMergeBy Prod.fst Prod.fst
    (fun c a => ⟨c.1, c.2, a.2⟩) (fun c => ⟨c.1, c.2, none⟩) (fun a => ⟨a.1, none, a.2⟩)
    cs amts

/-- Line 173, `df_cf.merge(df_off, how='outer', on='event_date')`. -/
def mergeOffers (rows : List CARow) (offs : List OfferRec) : List MergedRow :=
  outerMergeBy (fun z => z.event_date) (fun o => o.1)
    (fun z o => ⟨z.event_date, z.coupon, z.amt, o.2.1, o.2.2⟩)
    (fun z => ⟨z.event_date, z.coupon, z.amt, none, none⟩)
    (fun o => ⟨o.1, none, none, o.2.1, o.2.2⟩)
    rows offs

/-- Line 174, `fillna('–')`, on one cell: a missing value becomes the dash. -/
def fillDash {α : Type} : Option α → Fld α
  | some a => .val a
  | none => .dash

/-- Line 174 applied to one merged row. -/
def fillRow (z : MergedRow) : CashFlowRow :=
  ⟨z.event_date, fillDash z.coupon, fillDash z.amt, fillDash z.offer, fillDash z.offer_type⟩

/-- Line 175, `sort_values(by='event_date')`: ascending by the ISO date string
(modelled by a structural insertion sort; the code's sorted ascending output is
what matters, pandas fixes no tie order for its default unstable quicksort). -/
def sortByDate (rows : List CashFlowRow) : List CashFlowRow :=
  List.insertionSort (fun a b => Date.leb a.event_date b.event_date = true) rows

/-- Lines 154-176 of `moex_bond_info`: construction of the cash-flow frame
`df_cf` from the three raw event streams. -/
def moex_bond_info_cf (cs : List CouponRec) (amts : List AmortRec)
    (offs : List OfferRec) : List CashFlowRow :=
  sortByDate ((mergeOffers (mergeCouponsAmort cs amts) offs).map fillRow)

/-- The coupon value the coupon stream carries for date `d`, if any. -/
def srcCoupon (cs : List CouponRec) (d : Date) : Option ℚ :=
  match cs.find? (fun c => c.1 == d) with
  | some c => c.2
  | none => none

/-- The amortization value the amortization stream carries for date `d`, if any. -/
def srcAmort (amts : List AmortRec) (d : Date) : Option ℚ :=
  match amts.find? (fun a => a.1 == d) with
  | some a => a.2
  | none => none

/-- The offer price the offer stream carries for date `d`, if any. -/
def srcOffer (offs : List OfferRec) (d : Date) : Option ℚ :=
  match offs.find? (fun o => o.1 == d) with
  | some o => o.2.1
  | none => none

/-- The offer kind the offer stream carries for date `d`, if any. -/
def srcOfferKind (offs : List OfferRec) (d : Date) : Option String :=
  match offs.find? (fun o => o.1 == d) with
  | some o => o.2.2
  | none => none

/-- A Python DataFrame object reachable by the cash-flow local name during a
call of `moex_bond_yield`: the caller's raw frame, or one of the frames
produced by lines 194, 207 and 208. -/
inductive CfObj where
  | raw (rows : List CashFlowRow)
  | conv (rows : List SolveRow)
deriving DecidableEq, Repr

/-- The heap of DataFrame objects visible to a call of `moex_bond_yield`:
Python references are indices into these lists. -/
structure Heap where
  nfos : List NfoDF
  cfs : List CfObj
deriving DecidableEq, Repr

/-- Heap/aliasing model of one call of `moex_bond_yield` on the frames at
indices `iNfo` and `iCf`.  Line 194 rebinds the local name to a freshly
allocated replaced copy (`DataFrame.replace` returns a new frame); line 207
assigns the converted date column in place on the object the local name is then
bound to; line 208 rebinds the local name to a freshly allocated filtered
selection.  The information frame is only read.  The returned heap is the state
of all caller-visible objects when the call returns or raises. -/
def moex_bond_yield_heap (h : Heap) (iNfo iCf : Nat) (price : ℚ) (today : Date) :
    Heap × Except Err (List Date × List ℚ) :=
  match h.cfs[iCf]? with
  | some (CfObj.raw rows0) =>
    let rows1 := rows0.map replaceDash
    let h1 : Heap := ⟨h.nfos, h.cfs ++ [CfObj.conv rows1]⟩
    let iLoc := h.cfs.length
    if couponMissing rows1 || offersPresent rows1 then
      (h1, .error .cantCalculateYTM)
    else
      match h.nfos[iNfo]? with
      | some nfo =>
        match getFloat nfo "FACEVALUE", getFloat nfo "ACCRUEDINT" with
        | some facevalue, some accruedint =>
          let rows2 := rows1.map (fun r => { r with event_date := r.event_date })
          let h2 : Heap := ⟨h1.nfos, h1.cfs.set iLoc (CfObj.conv rows2)⟩
          let fut := futureRows today rows2
          let h3 : Heap := ⟨h2.nfos, h2.cfs ++ [CfObj.conv fut]⟩
          (h3, .ok (today :: fut.map (fun r => r.event_date),
                    (-price / 100 * facevalue - accruedint) :: fut.map rowAmount))
        | _, _ => (h1, .error .missingFaceOrAccrued)
      | none => (h1, .error .missingFaceOrAccrued)
  | _ => (h, .error .cantCalculateYTM)

deriving instance DecidableEq for Except

/-! Helper lemmas about the solver's validation and construction stages. -/

lemma couponMissing_iff (df_cf : List CashFlowRow) :
    couponMissing (df_cf.map replaceDash) = true ↔ ∃ r ∈ df_cf, r.coupon = Fld.dash := by
  unfold couponMissing
  rw [List.any_eq_true]
  constructor
  · rintro ⟨s, hs, hnone⟩
    rw [List.mem_map] at hs
    obtain ⟨r, hr, rfl⟩ := hs
    refine ⟨r, hr, ?_⟩
    cases h : r.coupon with
    | val a => simp [replaceDash, h, Fld.toOpt] at hnone
    | dash => rfl
  · rintro ⟨r, hr, hdash⟩
    exact ⟨replaceDash r, List.mem_map_of_mem _ hr, by simp [replaceDash, hdash, Fld.toOpt]⟩

lemma offersPresent_iff (df_cf : List CashFlowRow) :
    offersPresent (df_cf.map replaceDash) = true ↔
      ∃ r ∈ df_cf, r.offer ≠ Fld.dash ∨ r.offer_type ≠ Fld.dash := by
  unfold offersPresent
  rw [List.any_eq_true]
  constructor
  · rintro ⟨s, hs, hsome⟩
    rw [List.mem_map] at hs
    obtain ⟨r, hr, rfl⟩ := hs
    refine ⟨r, hr, ?_⟩
    rw [Bool.or_eq_true] at hsome
    rcases hsome with h | h
    · left
      cases hc : r.offer with
      | val a => simp [hc]
      | dash => simp [replaceDash, hc, Fld.toOpt] at h
    · right
      cases hc : r.offer_type with
      | val a => simp [hc]
      | dash => simp [replaceDash, hc, Fld.toOpt] at h
  · rintro ⟨r, hr, hpres⟩
    refine ⟨replaceDash r, List.mem_map_of_mem _ hr, ?_⟩
    rw [Bool.or_eq_true]
    rcases hpres with h | h
    · left
      cases hc : r.offer with
      | val a => simp [replaceDash, hc, Fld.toOpt]
      | dash => exact absurd hc h
    · right
      cases hc : r.offer_type with
      | val a => simp [replaceDash, hc, Fld.toOpt]
      | dash => exact absurd hc h

/-- The success path of the pandas stage, written out. -/
lemma moex_pre_ok (today : Date) (df_nfo : NfoDF) (df_cf : List CashFlowRow)
    (price facevalue accruedint : ℚ)
    (hchk : couponMissing (df_cf.map replaceDash) = false)
    (hoff : offersPresent (df_cf.map replaceDash) = false)
    (hfv : getFloat df_nfo "FACEVALUE" = some facevalue)
    (hai : getFloat df_nfo "ACCRUEDINT" = some accruedint) :
    moex_bond_yield_pre today df_nfo df_cf price =
      .ok (today :: (futureRows today (df_cf.map replaceDash)).map (fun r => r.event_date),
           (-price / 100 * facevalue - accruedint) ::
             (futureRows today (df_cf.map replaceDash)).map rowAmount) := by
  simp only [moex_bond_yield_pre]
  rw [hchk, hoff, hfv, hai]
  simp

/-- The line-197 exception is raised by the pandas stage exactly when the
line-196 condition holds. -/
lemma pre_cant_iff (today : Date) (df_nfo : NfoDF) (df_cf : List CashFlowRow) (price : ℚ) :
    moex_bond_yield_pre today df_nfo df_cf price = Except.error Err.cantCalculateYTM ↔
      (couponMissing (df_cf.map replaceDash) || offersPresent (df_cf.map replaceDash)) = true := by
  constructor
  · intro h
    cases hcond : (couponMissing (df_cf.map replaceDash) || offersPresent (df_cf.map replaceDash)) with
    | true => rfl
    | false =>
      exfalso
      simp only [moex_bond_yield_pre, hcond] at h
      cases hfv : getFloat df_nfo "FACEVALUE" with
      | some facevalue =>
        cases hai : getFloat df_nfo "ACCRUEDINT" with
        | some accruedint => rw [hfv, hai] at h; simp at h
        | none => rw [hfv, hai] at h; simp at h
      | none =>
        cases hai : getFloat df_nfo "ACCRUEDINT" with
        | some accruedint => rw [hfv, hai] at h; simp at h
        | none => rw [hfv, hai] at h; simp at h
  · intro h
    simp only [moex_bond_yield_pre, h]
    rfl

/-- The line-197 exception survives the root-finder stage unchanged, and is the
only way the full call produces it. -/
lemma checked_cant_iff (today : Date) (df_nfo : NfoDF) (df_cf : List CashFlowRow) (price : ℚ) :
    moex_bond_yield_checked today df_nfo df_cf price = Except.error Err.cantCalculateYTM ↔
      moex_bond_yield_pre today df_nfo df_cf price = Except.error Err.cantCalculateYTM := by
  unfold moex_bond_yield_checked
  cases hp : moex_bond_yield_pre today df_nfo df_cf price with
  | error e => simp
  | ok v =>
    obtain ⟨dates, amounts⟩ := v
    by_cases hv : xirrValid amounts = true
    · simp [hv]
    · simp [hv]

lemma xirrValid_single (a : ℚ) : xirrValid [a] = false := by
  unfold xirrValid
  simp only [List.any_cons, List.any_nil, Bool.or_false, Bool.and_eq_false_iff]
  by_cases h : 0 < a
  · right
    simp only [decide_eq_false_iff_not, not_lt]
    exact le_of_lt h
  · left
    simp only [decide_eq_false_iff_not]
    exact h

/-- C1: for every schedule, price, face value and accrued interest the solver
accepts (the line-196 validation passes and both instrument facts parse), the
timeline handed to the root-finder is the purchase date followed by the dates
of the events strictly after it, and the amounts vector is
`-(price/100 * face_value + accrued_interest)` followed by coupon plus
amortization for each such event, a missing amortization contributing zero. -/
theorem c1_timeline_and_amounts (today : Date) (df_nfo : NfoDF) (df_cf : List CashFlowRow)
    (price facevalue accruedint : ℚ)
    (hchk : couponMissing (df_cf.map replaceDash) = false)
    (hoff : offersPresent (df_cf.map replaceDash) = false)
    (hfv : getFloat df_nfo "FACEVALUE" = some facevalue)
    (hai : getFloat df_nfo "ACCRUEDINT" = some accruedint) :
    moex_bond_yield_pre today df_nfo df_cf price =
      .ok (today :: (futureRows today (df_cf.map replaceDash)).map (fun r => r.event_date),
           (-(price / 100 * facevalue + accruedint)) ::
             (futureRows today (df_cf.map replaceDash)).map
               (fun r => r.coupon.getD 0 + r.amt.getD 0)) := by
  rw [moex_pre_ok today df_nfo df_cf price facevalue accruedint hchk hoff hfv hai]
  have hhead : -price / 100 * facevalue - accruedint = -(price / 100 * facevalue + accruedint) := by
    ring
  rw [hhead]
  rfl

/-- Witness for C1 at the concrete single-event schedule. -/
theorem c1_witness :
    moex_bond_yield_pre ⟨2024, 1, 1⟩ [("FACEVALUE", .num 1000), ("ACCRUEDINT", .num 0)]
        [⟨⟨2025, 1, 1⟩, .val 50, .val 1000, .dash, .dash⟩] 100 =
      .ok (⟨2024, 1, 1⟩ ::
             (futureRows ⟨2024, 1, 1⟩
               ([(⟨⟨2025, 1, 1⟩, .val 50, .val 1000, .dash, .dash⟩ : CashFlowRow)].map
                 replaceDash)).map (fun r => r.event_date),
           (-(100 / 100 * 1000 + 0)) ::
             (futureRows ⟨2024, 1, 1⟩
               ([(⟨⟨2025, 1, 1⟩, .val 50, .val 1000, .dash, .dash⟩ : CashFlowRow)].map
                 replaceDash)).map (fun r => r.coupon.getD 0 + r.amt.getD 0)) :=
  c1_timeline_and_amounts ⟨2024, 1, 1⟩
    [("FACEVALUE", .num 1000), ("ACCRUEDINT", .num 0)]
    [⟨⟨2025, 1, 1⟩, .val 50, .val 1000, .dash, .dash⟩]
    100 1000 0 (by decide) (by decide) rfl rfl

/-- C2: an event anywhere in the schedule, past or future, carrying a present
offer price or offer type makes the solve fail with the line-197 exception, and
no yield is returned. -/
theorem c2_embedded_option_rejected (today : Date) (df_nfo : NfoDF) (df_cf : List CashFlowRow)
    (price : ℚ) (r : CashFlowRow) (hr : r ∈ df_cf)
    (hopt : r.offer ≠ Fld.dash ∨ r.offer_type ≠ Fld.dash) :
    moex_bond_yield_checked today df_nfo df_cf price = Except.error Err.cantCalculateYTM ∧
      ∀ out, ModelYield today df_nfo df_cf price out → out = Except.error Err.cantCalculateYTM := by
  have hpres : offersPresent (df_cf.map replaceDash) = true :=
    (offersPresent_iff df_cf).mpr ⟨r, hr, hopt⟩
  have hpre : moex_bond_yield_pre today df_nfo df_cf price = .error .cantCalculateYTM :=
    (pre_cant_iff today df_nfo df_cf price).mpr (by rw [hpres, Bool.or_true])
  constructor
  · simp only [moex_bond_yield_checked, hpre]
  · intro out hmy
    simp only [ModelYield, hpre] at hmy
    exact hmy

/-- Witness for C2: a schedule whose only event carries an offer. -/
theorem c2_witness :
    moex_bond_yield_checked ⟨2024, 1, 1⟩ [("FACEVALUE", .num 1000), ("ACCRUEDINT", .num 0)]
        [⟨⟨2025, 1, 1⟩, .val 50, .dash, .val 100, .val "Оферта"⟩] 100 =
      Except.error Err.cantCalculateYTM :=
  (c2_embedded_option_rejected ⟨2024, 1, 1⟩ _ _ 100
    ⟨⟨2025, 1, 1⟩, .val 50, .dash, .val 100, .val "Оферта"⟩
    (by decide) (Or.inl (by decide))).1

/-- C3 (amended): the incompleteness rejection is the line-197 exception, and it
fires exactly when some event anywhere in the schedule — past events included —
lacks a coupon amount or carries an offer field; the check runs on line 196,
before the date filtering of line 208. -/
theorem c3_validation_iff (today : Date) (df_nfo : NfoDF) (df_cf : List CashFlowRow) (price : ℚ) :
    moex_bond_yield_checked today df_nfo df_cf price = Except.error Err.cantCalculateYTM ↔
      (∃ r ∈ df_cf, r.coupon = Fld.dash) ∨
        (∃ r ∈ df_cf, r.offer ≠ Fld.dash ∨ r.offer_type ≠ Fld.dash) := by
  rw [checked_cant_iff, pre_cant_iff, Bool.or_eq_true, couponMissing_iff, offersPresent_iff]

/-- Counterexample for C3: a schedule where the only event lacking a coupon is
in the past (every event strictly after the purchase date has its coupon), yet
the solve is rejected, because the line-196 check runs before date filtering. -/
theorem c3_counterexample :
    (∀ r ∈ [(⟨⟨2024, 1, 1⟩, .dash, .dash, .dash, .dash⟩ : CashFlowRow),
            ⟨⟨2025, 1, 1⟩, .val 50, .val 1000, .dash, .dash⟩],
        Date.ltb ⟨2024, 6, 1⟩ r.event_date = true → r.coupon ≠ Fld.dash) ∧
      moex_bond_yield_checked ⟨2024, 6, 1⟩ [("FACEVALUE", .num 1000), ("ACCRUEDINT", .num 0)]
          [⟨⟨2024, 1, 1⟩, .dash, .dash, .dash, .dash⟩,
           ⟨⟨2025, 1, 1⟩, .val 50, .val 1000, .dash, .dash⟩] 100 =
        Except.error Err.cantCalculateYTM := by
  decide

/-- C4 (amended): when no events remain after the date filter the solve still
fails and returns no default or zero yield, but not through any empty-schedule
check of its own — the root-finder receives only the initial outflow, whose
single amount can never contain both a positive and a negative payment, and
raises its invalid-payments error. -/
theorem c4_empty_schedule_fails (today : Date) (df_nfo : NfoDF) (df_cf : List CashFlowRow)
    (price facevalue accruedint : ℚ)
    (hchk : couponMissing (df_cf.map replaceDash) = false)
    (hoff : offersPresent (df_cf.map replaceDash) = false)
    (hfv : getFloat df_nfo "FACEVALUE" = some facevalue)
    (hai : getFloat df_nfo "ACCRUEDINT" = some accruedint)
    (hemp : futureRows today (df_cf.map replaceDash) = []) :
    moex_bond_yield_checked today df_nfo df_cf price = Except.error Err.invalidPayments ∧
      ∀ out, ModelYield today df_nfo df_cf price out → out = Except.error Err.invalidPayments := by
  have hpre := moex_pre_ok today df_nfo df_cf price facevalue accruedint hchk hoff hfv hai
  rw [hemp] at hpre
  simp only [List.map_nil] at hpre
  have hval : xirrValid [-price / 100 * facevalue - accruedint] = false :=
    xirrValid_single _
  constructor
  · simp only [moex_bond_yield_checked, hpre]
    rw [if_neg (by rw [hval]; exact Bool.false_ne_true)]
  · intro out hmy
    simp only [ModelYield, hpre] at hmy
    rw [if_neg (by rw [hval]; exact Bool.false_ne_true)] at hmy
    exact hmy

/-- Witness for C4 (amended) at a schedule whose only event is in the past. -/
theorem c4_witness :
    moex_bond_yield_checked ⟨2024, 6, 1⟩ [("FACEVALUE", .num 1000), ("ACCRUEDINT", .num 0)]
        [⟨⟨2020, 1, 1⟩, .val 50, .val 1000, .dash, .dash⟩] 100 =
      Except.error Err.invalidPayments :=
  (c4_empty_schedule_fails ⟨2024, 6, 1⟩
    [("FACEVALUE", .num 1000), ("ACCRUEDINT", .num 0)]
    [⟨⟨2020, 1, 1⟩, .val 50, .val 1000, .dash, .dash⟩] 100 1000 0
    (by decide) (by decide) rfl rfl rfl).1

/-- Counterexample for C4: with only past events the pandas stage itself
succeeds — it builds the one-element vectors and raises no typed empty-schedule
error — and the failure that does occur is the external root-finder's
invalid-payments error. -/
theorem c4_counterexample :
    moex_bond_yield_pre ⟨2024, 6, 1⟩ [("FACEVALUE", .num 1000), ("ACCRUEDINT", .num 0)]
        [⟨⟨2020, 1, 1⟩, .val 50, .val 1000, .dash, .dash⟩] 100 =
      .ok ([⟨2024, 6, 1⟩], [-100 / 100 * 1000 - 0]) ∧
      moex_bond_yield_checked ⟨2024, 6, 1⟩ [("FACEVALUE", .num 1000), ("ACCRUEDINT", .num 0)]
          [⟨⟨2020, 1, 1⟩, .val 50, .val 1000, .dash, .dash⟩] 100 =
        Except.error Err.invalidPayments := by
  have h1 : moex_bond_yield_pre ⟨2024, 6, 1⟩ [("FACEVALUE", .num 1000), ("ACCRUEDINT", .num 0)]
      [⟨⟨2020, 1, 1⟩, .val 50, .val 1000, .dash, .dash⟩] 100 =
      .ok ([⟨2024, 6, 1⟩], [-100 / 100 * 1000 - 0]) := by
    rw [moex_pre_ok ⟨2024, 6, 1⟩ [("FACEVALUE", .num 1000), ("ACCRUEDINT", .num 0)]
      [⟨⟨2020, 1, 1⟩, .val 50, .val 1000, .dash, .dash⟩] 100 1000 0
      (by decide) (by decide) rfl rfl]
    rfl
  refine ⟨h1, ?_⟩
  simp only [moex_bond_yield_checked, h1]
  rw [if_neg (by rw [xirrValid_single]; exact Bool.false_ne_true)]

/-- C5: for every schedule and purchase date, an event dated exactly on the
purchase date is dropped by the line-208 filter (and so contributes nothing to
the timeline or amounts, which are built from the filtered rows only), while an
event dated one day after the purchase date is kept. -/
theorem c5_boundary (today : Date) (rows : List SolveRow) (r : SolveRow) (hr : r ∈ rows) :
    (r.event_date.ord = today.ord → r ∉ futureRows today rows) ∧
      (r.event_date.ord = today.ord + 1 → r ∈ futureRows today rows) := by
  constructor
  · intro he hmem
    unfold futureRows at hmem
    rw [List.mem_filter] at hmem
    have hlt := hmem.2
    unfold Date.ltb at hlt
    rw [decide_eq_true_eq] at hlt
    omega
  · intro he
    unfold futureRows
    rw [List.mem_filter]
    refine ⟨hr, ?_⟩
    unfold Date.ltb
    rw [decide_eq_true_eq]
    omega

/-- Witness for C5: the day after 2024-12-31 (which is 2025-01-01) is kept. -/
theorem c5_witness :
    (⟨⟨2025, 1, 1⟩, some 50, some 1000, none, none⟩ : SolveRow) ∈
      futureRows ⟨2024, 12, 31⟩ [⟨⟨2025, 1, 1⟩, some 50, some 1000, none, none⟩] :=
  (c5_boundary ⟨2024, 12, 31⟩ _ _ (by decide)).2 (by decide)

/-- C10: the call mutates neither caller-visible frame: the information-frame
heap is untouched, the caller's cash-flow object still holds its original rows
when the call returns or raises (the line-207 in-place column assignment hits
only the fresh copy allocated by line 194), and the observable outcome agrees
with the pure function of the caller's data. -/
theorem c10_frame (h : Heap) (iNfo iCf : Nat) (price : ℚ) (today : Date)
    (rows0 : List CashFlowRow) (nfo : NfoDF)
    (hcf : h.cfs[iCf]? = some (CfObj.raw rows0))
    (hnfo : h.nfos[iNfo]? = some nfo)
    (hlt : iCf < h.cfs.length) :
    (moex_bond_yield_heap h iNfo iCf price today).1.nfos = h.nfos ∧
      (moex_bond_yield_heap h iNfo iCf price today).1.cfs[iCf]? = some (CfObj.raw rows0) ∧
      (moex_bond_yield_heap h iNfo iCf price today).2 =
        moex_bond_yield_pre today nfo rows0 price := by
  have happ : (h.cfs ++ [CfObj.conv (rows0.map replaceDash)])[iCf]? = some (CfObj.raw rows0) := by
    rw [List.getElem?_append]
    rw [if_pos hlt]
    exact hcf
  have hsetapp :
      ∀ o : CfObj, ((h.cfs ++ [CfObj.conv (rows0.map replaceDash)]).set h.cfs.length o)[iCf]? =
        some (CfObj.raw rows0) := by
    intro o
    rw [List.getElem?_set_ne (by omega)]
    exact happ
  have hrows2 : (rows0.map replaceDash).map
      (fun r => { r with event_date := r.event_date }) = rows0.map replaceDash :=
    List.map_id' _
  simp only [moex_bond_yield_heap, moex_bond_yield_pre, hcf, hnfo, hrows2]
  by_cases hval : (couponMissing (rows0.map replaceDash) ||
      offersPresent (rows0.map replaceDash)) = true
  · rw [if_pos hval, if_pos hval]
    exact ⟨rfl, happ, rfl⟩
  · rw [if_neg hval, if_neg hval]
    cases hfv : getFloat nfo "FACEVALUE" with
    | some facevalue =>
      cases hai : getFloat nfo "ACCRUEDINT" with
      | some accruedint =>
        refine ⟨rfl, ?_, rfl⟩
        rw [List.getElem?_append]
        rw [if_pos (by simp; omega)]
        exact hsetapp _
      | none =>
        exact ⟨rfl, happ, rfl⟩
    | none =>
      exact ⟨rfl, happ, rfl⟩

/-- Witness for C10 at a one-object heap. -/
theorem c10_witness :
    (moex_bond_yield_heap
        ⟨[[("FACEVALUE", .num 1000), ("ACCRUEDINT", .num 0)]],
         [CfObj.raw [⟨⟨2025, 1, 1⟩, .val 50, .val 1000, .dash, .dash⟩]]⟩
        0 0 100 ⟨2024, 1, 1⟩).1.nfos =
      [[("FACEVALUE", .num 1000), ("ACCRUEDINT", .num 0)]] ∧
      (moex_bond_yield_heap
          ⟨[[("FACEVALUE", .num 1000), ("ACCRUEDINT", .num 0)]],
           [CfObj.raw [⟨⟨2025, 1, 1⟩, .val 50, .val 1000, .dash, .dash⟩]]⟩
          0 0 100 ⟨2024, 1, 1⟩).1.cfs[0]? =
        some (CfObj.raw [⟨⟨2025, 1, 1⟩, .val 50, .val 1000, .dash, .dash⟩]) ∧
      (moex_bond_yield_heap
          ⟨[[("FACEVALUE", .num 1000), ("ACCRUEDINT", .num 0)]],
           [CfObj.raw [⟨⟨2025, 1, 1⟩, .val 50, .val 1000, .dash, .dash⟩]]⟩
          0 0 100 ⟨2024, 1, 1⟩).2 =
        moex_bond_yield_pre ⟨2024, 1, 1⟩ [("FACEVALUE", .num 1000), ("ACCRUEDINT", .num 0)]
          [⟨⟨2025, 1, 1⟩, .val 50, .val 1000, .dash, .dash⟩] 100 :=
  c10_frame _ 0 0 100 ⟨2024, 1, 1⟩ _ _ rfl rfl (by decide)

/-! Lemmas about the ISO-string date order used by the builder's sort. -/

lemma leb_iff (a b : Date) : a.leb b = true ↔
    (a.year < b.year ∨ (a.year = b.year ∧
      (a.month < b.month ∨ (a.month = b.month ∧ a.day ≤ b.day)))) := by
  unfold Date.leb
  simp only [Bool.or_eq_true, Bool.and_eq_true, decide_eq_true_eq, beq_iff_eq]

lemma leb_trans {a b c : Date} (h1 : a.leb b = true) (h2 : b.leb c = true) :
    a.leb c = true := by
  rw [leb_iff] at h1 h2 ⊢
  omega

lemma leb_total (a b : Date) : a.leb b = true ∨ b.leb a = true := by
  rw [leb_iff, leb_iff]
  omega

/-! Lemmas about the outer-merge model. -/

lemma find?_eq_some_key {α : Type} (k : α → Date) {l : List α} (hN : (l.map k).Nodup)
    {x : α} (hx : x ∈ l) {d : Date} (hk : k x = d) :
    l.find? (fun a => k a == d) = some x := by
  induction l with
  | nil => simp at hx
  | cons b bs ih =>
    rw [List.map_cons, List.nodup_cons] at hN
    rcases List.mem_cons.mp hx with rfl | hxbs
    · exact List.find?_cons_of_pos _ (by simp [hk])
    · have hkb : ¬(k b == d) = true := by
        simp only [beq_iff_eq]
        intro he
        exact hN.1 (by rw [he, ← hk]; exact List.mem_map_of_mem k hxbs)
      rw [@List.find?_cons_of_neg _ (fun a => k a == d) b bs hkb]
      exact ih hN.2 hxbs

section MergeLemmas

variable {α β γ : Type} {kx : α → Date} {ky : β → Date}
  {both : α → β → γ} {lonly : α → γ} {ronly : β → γ}

lemma mem_outerMergeBy_cases {xs : List α} {ys : List β} {z : γ}
    (hz : z ∈ outerMergeBy kx ky both lonly ronly xs ys) :
    (∃ x ∈ xs, ∃ y ∈ ys, ky y = kx x ∧ z = both x y) ∨
      (∃ x ∈ xs, (∀ y ∈ ys, ky y ≠ kx x) ∧ z = lonly x) ∨
      (∃ y ∈ ys, (∀ x ∈ xs, kx x ≠ ky y) ∧ z = ronly y) := by
  unfold outerMergeBy at hz
  rw [List.mem_append] at hz
  rcases hz with hz | hz
  · rw [List.mem_flatMap] at hz
    obtain ⟨x, hx, hzx⟩ := hz
    cases hfil : ys.filter (fun y => ky y == kx x) with
    | nil =>
      rw [hfil] at hzx
      right; left
      refine ⟨x, hx, ?_, by simpa using hzx⟩
      intro y hy hkey
      have hmem : y ∈ ys.filter (fun y => ky y == kx x) := by
        rw [List.mem_filter]
        exact ⟨hy, by simp [hkey]⟩
      rw [hfil] at hmem
      simp at hmem
    | cons m ms =>
      rw [hfil] at hzx
      left
      rw [List.mem_map] at hzx
      obtain ⟨y, hy, rfl⟩ := hzx
      have hy' : y ∈ ys.filter (fun y => ky y == kx x) := by rw [hfil]; exact hy
      rw [List.mem_filter] at hy'
      exact ⟨x, hx, y, hy'.1, by simpa using hy'.2, rfl⟩
  · right; right
    rw [List.mem_map] at hz
    obtain ⟨y, hy, rfl⟩ := hz
    rw [List.mem_filter] at hy
    refine ⟨y, hy.1, ?_, rfl⟩
    intro x hx
    have hany := hy.2
    rw [Bool.not_eq_true', List.any_eq_false] at hany
    have := hany x hx
    simpa using this

lemma filter_key_singleton {ys : List β} (hN : (ys.map ky).Nodup) (c : Date) :
    ys.filter (fun y => ky y == c) = [] ∨ ∃ y, ys.filter (fun y => ky y == c) = [y] := by
  induction ys with
  | nil => exact Or.inl rfl
  | cons b bs ih =>
    rw [List.map_cons, List.nodup_cons] at hN
    by_cases hb : (ky b == c) = true
    · right
      refine ⟨b, ?_⟩
      rw [@List.filter_cons_of_pos _ (fun y => ky y == c) b bs hb]
      have hnil : bs.filter (fun y => ky y == c) = [] := by
        rw [List.filter_eq_nil_iff]
        intro a ha hak
        rw [beq_iff_eq] at hak hb
        exact hN.1 (by rw [hb, ← hak]; exact List.mem_map_of_mem ky ha)
      rw [hnil]
    · rw [@List.filter_cons_of_neg _ (fun y => ky y == c) b bs hb]
      exact ih hN.2

lemma outerMergeBy_map_key (kz : γ → Date)
    (hb : ∀ x y, kz (both x y) = kx x) (hl : ∀ x, kz (lonly x) = kx x)
    (hr : ∀ y, kz (ronly y) = ky y)
    {xs : List α} {ys : List β} (hyN : (ys.map ky).Nodup) :
    (outerMergeBy kx ky both lonly ronly xs ys).map kz =
      xs.map kx ++ (ys.filter (fun y => !xs.any (fun x => kx x == ky y))).map ky := by
  unfold outerMergeBy
  rw [List.map_append]
  congr 1
  · induction xs with
    | nil => rfl
    | cons a as ih =>
      rw [List.flatMap_cons, List.map_append, ih]
      show ((match ys.filter (fun y => ky y == kx a) with
        | [] => [lonly a]
        | m :: ms => (m :: ms).map (fun y => both a y)) : List γ).map kz ++ as.map kx =
          kx a :: as.map kx
      rcases filter_key_singleton hyN (kx a) with hf | ⟨y, hf⟩
      · rw [hf]
        simp [hl]
      · rw [hf]
        simp [hb]
  · rw [List.map_map]
    exact List.map_congr_left (fun y _ => hr y)

lemma outerMergeBy_key_nodup (kz : γ → Date)
    (hb : ∀ x y, kz (both x y) = kx x) (hl : ∀ x, kz (lonly x) = kx x)
    (hr : ∀ y, kz (ronly y) = ky y)
    {xs : List α} {ys : List β} (hxN : (xs.map kx).Nodup) (hyN : (ys.map ky).Nodup) :
    ((outerMergeBy kx ky both lonly ronly xs ys).map kz).Nodup := by
  rw [outerMergeBy_map_key kz hb hl hr hyN]
  refine List.Nodup.append hxN (((List.filter_sublist ys).map ky).nodup hyN) ?_
  intro d hdx hdy
  rw [List.mem_map] at hdy
  obtain ⟨y, hy, rfl⟩ := hdy
  rw [List.mem_filter] at hy
  have hany := hy.2
  rw [Bool.not_eq_true', List.any_eq_false] at hany
  rw [List.mem_map] at hdx
  obtain ⟨x, hx, hkx⟩ := hdx
  exact hany x hx (by simp [hkx])

lemma outerMergeBy_key_iff (kz : γ → Date)
    (hb : ∀ x y, kz (both x y) = kx x) (hl : ∀ x, kz (lonly x) = kx x)
    (hr : ∀ y, kz (ronly y) = ky y) (xs : List α) (ys : List β) (d : Date) :
    (∃ z ∈ outerMergeBy kx ky both lonly ronly xs ys, kz z = d) ↔
      (∃ x ∈ xs, kx x = d) ∨ ∃ y ∈ ys, ky y = d := by
  constructor
  · rintro ⟨z, hz, rfl⟩
    rcases mem_outerMergeBy_cases hz with ⟨x, hx, y, _, _, rfl⟩ | ⟨x, hx, _, rfl⟩ |
      ⟨y, hy, _, rfl⟩
    · exact Or.inl ⟨x, hx, (hb x y).symm⟩
    · exact Or.inl ⟨x, hx, (hl x).symm⟩
    · exact Or.inr ⟨y, hy, (hr y).symm⟩
  · rintro (⟨x, hx, rfl⟩ | ⟨y, hy, rfl⟩)
    · cases hfil : ys.filter (fun y => ky y == kx x) with
      | nil =>
        refine ⟨lonly x, ?_, hl x⟩
        unfold outerMergeBy
        rw [List.mem_append]
        left
        rw [List.mem_flatMap]
        refine ⟨x, hx, ?_⟩
        rw [hfil]
        exact List.mem_cons_self _ _
      | cons m ms =>
        refine ⟨both x m, ?_, hb x m⟩
        unfold outerMergeBy
        rw [List.mem_append]
        left
        rw [List.mem_flatMap]
        refine ⟨x, hx, ?_⟩
        rw [hfil]
        exact List.mem_map_of_mem _ (List.mem_cons_self m ms)
    · by_cases hmatch : ∃ x ∈ xs, kx x = ky y
      · obtain ⟨x, hx, hkxy⟩ := hmatch
        cases hfil : ys.filter (fun y' => ky y' == kx x) with
        | nil =>
          exfalso
          rw [List.filter_eq_nil_iff] at hfil
          exact hfil y hy (by simp [hkxy])
        | cons m ms =>
          refine ⟨both x m, ?_, by rw [hb x m, hkxy]⟩
          unfold outerMergeBy
          rw [List.mem_append]
          left
          rw [List.mem_flatMap]
          refine ⟨x, hx, ?_⟩
          rw [hfil]
          exact List.mem_map_of_mem _ (List.mem_cons_self m ms)
      · push_neg at hmatch
        refine ⟨ronly y, ?_, hr y⟩
        unfold outerMergeBy
        rw [List.mem_append]
        right
        apply List.mem_map_of_mem
        rw [List.mem_filter]
        refine ⟨hy, ?_⟩
        rw [Bool.not_eq_true', List.any_eq_false]
        intro x hx
        simp only [beq_iff_eq]
        exact hmatch x hx

end MergeLemmas

/-! The merge lemmas specialized to the two concrete merges of the builder. -/

lemma mergeCouponsAmort_key_iff (cs : List CouponRec) (amts : List AmortRec) (d : Date) :
    (∃ z ∈ mergeCouponsAmort cs amts, z.event_date = d) ↔
      (∃ c ∈ cs, c.1 = d) ∨ ∃ a ∈ amts, a.1 = d := by
  unfold mergeCouponsAmort
  exact @outerMergeBy_key_iff _ _ _ Prod.fst Prod.fst
    (fun c a => ⟨c.1, c.2, a.2⟩) (fun c => ⟨c.1, c.2, none⟩) (fun a => ⟨a.1, none, a.2⟩)
    (fun z : CARow => z.event_date) (fun _ _ => rfl) (fun _ => rfl) (fun _ => rfl) cs amts d

lemma mergeOffers_key_iff (rows : List CARow) (offs : List OfferRec) (d : Date) :
    (∃ w ∈ mergeOffers rows offs, w.event_date = d) ↔
      (∃ z ∈ rows, z.event_date = d) ∨ ∃ o ∈ offs, o.1 = d := by
  unfold mergeOffers
  exact @outerMergeBy_key_iff _ _ _ (fun z : CARow => z.event_date) (fun o : OfferRec => o.1)
    (fun z o => ⟨z.event_date, z.coupon, z.amt, o.2.1, o.2.2⟩)
    (fun z => ⟨z.event_date, z.coupon, z.amt, none, none⟩)
    (fun o => ⟨o.1, none, none, o.2.1, o.2.2⟩)
    (fun w : MergedRow => w.event_date) (fun _ _ => rfl) (fun _ => rfl) (fun _ => rfl)
    rows offs d

lemma mergeCouponsAmort_key_nodup {cs : List CouponRec} {amts : List AmortRec}
    (hc : (cs.map Prod.fst).Nodup) (ha : (amts.map Prod.fst).Nodup) :
    ((mergeCouponsAmort cs amts).map (fun z => z.event_date)).Nodup := by
  unfold mergeCouponsAmort
  exact @outerMergeBy_key_nodup _ _ _ Prod.fst Prod.fst
    (fun c a => ⟨c.1, c.2, a.2⟩) (fun c => ⟨c.1, c.2, none⟩) (fun a => ⟨a.1, none, a.2⟩)
    (fun z : CARow => z.event_date) (fun _ _ => rfl) (fun _ => rfl) (fun _ => rfl)
    cs amts hc ha

lemma merged_key_nodup {cs : List CouponRec} {amts : List AmortRec} {offs : List OfferRec}
    (hc : (cs.map Prod.fst).Nodup) (ha : (amts.map Prod.fst).Nodup)
    (ho : (offs.map (fun o => o.1)).Nodup) :
    ((mergeOffers (mergeCouponsAmort cs amts) offs).map (fun w => w.event_date)).Nodup := by
  unfold mergeOffers
  exact @outerMergeBy_key_nodup _ _ _ (fun z : CARow => z.event_date) (fun o : OfferRec => o.1)
    (fun z o => ⟨z.event_date, z.coupon, z.amt, o.2.1, o.2.2⟩)
    (fun z => ⟨z.event_date, z.coupon, z.amt, none, none⟩)
    (fun o => ⟨o.1, none, none, o.2.1, o.2.2⟩)
    (fun w : MergedRow => w.event_date) (fun _ _ => rfl) (fun _ => rfl) (fun _ => rfl)
    (mergeCouponsAmort cs amts) offs (mergeCouponsAmort_key_nodup hc ha) ho

lemma mergeCouponsAmort_fields {cs : List CouponRec} {amts : List AmortRec}
    (hc : (cs.map Prod.fst).Nodup) (ha : (amts.map Prod.fst).Nodup)
    {z : CARow} (hz : z ∈ mergeCouponsAmort cs amts) :
    z.coupon = srcCoupon cs z.event_date ∧ z.amt = srcAmort amts z.event_date := by
  unfold mergeCouponsAmort at hz
  rcases mem_outerMergeBy_cases hz with ⟨c, hcm, a, ham, hk, rfl⟩ | ⟨c, hcm, hno, rfl⟩ |
    ⟨a, ham, hno, rfl⟩
  · refine ⟨?_, ?_⟩
    · show c.2 = srcCoupon cs c.1
      unfold srcCoupon
      rw [find?_eq_some_key Prod.fst hc hcm rfl]
    · show a.2 = srcAmort amts c.1
      unfold srcAmort
      rw [find?_eq_some_key Prod.fst ha ham hk]
  · refine ⟨?_, ?_⟩
    · show c.2 = srcCoupon cs c.1
      unfold srcCoupon
      rw [find?_eq_some_key Prod.fst hc hcm rfl]
    · show (none : Option ℚ) = srcAmort amts c.1
      unfold srcAmort
      rw [List.find?_eq_none.mpr (fun a ham => by simpa using hno a ham)]
  · refine ⟨?_, ?_⟩
    · show (none : Option ℚ) = srcCoupon cs a.1
      unfold srcCoupon
      rw [List.find?_eq_none.mpr (fun c hcm => by simpa using hno c hcm)]
    · show a.2 = srcAmort amts a.1
      unfold srcAmort
      rw [find?_eq_some_key Prod.fst ha ham rfl]

lemma merged_fields {cs : List CouponRec} {amts : List AmortRec} {offs : List OfferRec}
    (hc : (cs.map Prod.fst).Nodup) (ha : (amts.map Prod.fst).Nodup)
    (ho : (offs.map (fun o => o.1)).Nodup)
    {w : MergedRow} (hw : w ∈ mergeOffers (mergeCouponsAmort cs amts) offs) :
    w.coupon = srcCoupon cs w.event_date ∧ w.amt = srcAmort amts w.event_date ∧
      w.offer = srcOffer offs w.event_date ∧ w.offer_type = srcOfferKind offs w.event_date := by
  unfold mergeOffers at hw
  rcases mem_outerMergeBy_cases hw with ⟨z, hz, o, hom, hk, rfl⟩ | ⟨z, hz, hno, rfl⟩ |
    ⟨o, hom, hno, rfl⟩
  · obtain ⟨h1, h2⟩ := mergeCouponsAmort_fields hc ha hz
    refine ⟨h1, h2, ?_, ?_⟩
    · show o.2.1 = srcOffer offs z.event_date
      unfold srcOffer
      rw [find?_eq_some_key (fun o : OfferRec => o.1) ho hom hk]
    · show o.2.2 = srcOfferKind offs z.event_date
      unfold srcOfferKind
      rw [find?_eq_some_key (fun o : OfferRec => o.1) ho hom hk]
  · obtain ⟨h1, h2⟩ := mergeCouponsAmort_fields hc ha hz
    refine ⟨h1, h2, ?_, ?_⟩
    · show (none : Option ℚ) = srcOffer offs z.event_date
      unfold srcOffer
      rw [List.find?_eq_none.mpr (fun o hom => by simpa using hno o hom)]
    · show (none : Option String) = srcOfferKind offs z.event_date
      unfold srcOfferKind
      rw [List.find?_eq_none.mpr (fun o hom => by simpa using hno o hom)]
  · have hnokey : ¬((∃ c ∈ cs, c.1 = o.1) ∨ ∃ a ∈ amts, a.1 = o.1) := by
      rw [← mergeCouponsAmort_key_iff]
      rintro ⟨z, hz, hzk⟩
      exact hno z hz hzk
    rw [not_or] at hnokey
    refine ⟨?_, ?_, ?_, ?_⟩
    · show (none : Option ℚ) = srcCoupon cs o.1
      unfold srcCoupon
      rw [List.find?_eq_none.mpr (fun c hcm => by
        simp only [beq_iff_eq]
        intro he
        exact hnokey.1 ⟨c, hcm, he⟩)]
    · show (none : Option ℚ) = srcAmort amts o.1
      unfold srcAmort
      rw [List.find?_eq_none.mpr (fun a ham => by
        simp only [beq_iff_eq]
        intro he
        exact hnokey.2 ⟨a, ham, he⟩)]
    · show o.2.1 = srcOffer offs o.1
      unfold srcOffer
      rw [find?_eq_some_key (fun o : OfferRec => o.1) ho hom rfl]
    · show o.2.2 = srcOfferKind offs o.1
      unfold srcOfferKind
      rw [find?_eq_some_key (fun o : OfferRec => o.1) ho hom rfl]

/-! Builder-level lemmas. -/

lemma mem_info_cf_iff (cs : List CouponRec) (amts : List AmortRec) (offs : List OfferRec)
    (r : CashFlowRow) :
    r ∈ moex_bond_info_cf cs amts offs ↔
      ∃ w ∈ mergeOffers (mergeCouponsAmort cs amts) offs, fillRow w = r := by
  unfold moex_bond_info_cf sortByDate
  rw [(List.perm_insertionSort _ _).mem_iff, List.mem_map]

lemma info_cf_keys (cs : List CouponRec) (amts : List AmortRec) (offs : List OfferRec) :
    ((moex_bond_info_cf cs amts offs).map (fun r => r.event_date)).Perm
      ((mergeOffers (mergeCouponsAmort cs amts) offs).map (fun w => w.event_date)) := by
  unfold moex_bond_info_cf sortByDate
  have hperm := (List.perm_insertionSort
    (fun a b : CashFlowRow => Date.leb a.event_date b.event_date = true)
    ((mergeOffers (mergeCouponsAmort cs amts) offs).map fillRow)).map
      (fun r : CashFlowRow => r.event_date)
  refine hperm.trans ?_
  rw [List.map_map]
  exact List.Perm.refl _

lemma info_cf_keys_nodup {cs : List CouponRec} {amts : List AmortRec} {offs : List OfferRec}
    (hc : (cs.map Prod.fst).Nodup) (ha : (amts.map Prod.fst).Nodup)
    (ho : (offs.map (fun o => o.1)).Nodup) :
    ((moex_bond_info_cf cs amts offs).map (fun r => r.event_date)).Nodup :=
  ((info_cf_keys cs amts offs).nodup_iff).mpr (merged_key_nodup hc ha ho)

lemma info_cf_sorted (cs : List CouponRec) (amts : List AmortRec) (offs : List OfferRec) :
    List.Pairwise (fun a b : CashFlowRow => Date.leb a.event_date b.event_date = true)
      (moex_bond_info_cf cs amts offs) := by
  unfold moex_bond_info_cf sortByDate
  haveI : IsTotal CashFlowRow (fun a b => Date.leb a.event_date b.event_date = true) :=
    ⟨fun a b => leb_total a.event_date b.event_date⟩
  haveI : IsTrans CashFlowRow (fun a b => Date.leb a.event_date b.event_date = true) :=
    ⟨fun _ _ _ h1 h2 => leb_trans h1 h2⟩
  exact List.sorted_insertionSort _ _

/-- C6: the builder outer-merges the three streams keyed by date — the output
has a row for a date iff some stream has a record for it; each output row
carries, for every field, exactly the value its stream supplies for that date
(absent, i.e. the dash, when the stream has no value there — not zero); with
per-stream distinct dates each date yields one row; and the output is sorted
ascending by date. -/
theorem c6_outer_merge (cs : List CouponRec) (amts : List AmortRec) (offs : List OfferRec)
    (hc : (cs.map Prod.fst).Nodup) (ha : (amts.map Prod.fst).Nodup)
    (ho : (offs.map (fun o => o.1)).Nodup) :
    (∀ d : Date, (∃ r ∈ moex_bond_info_cf cs amts offs, r.event_date = d) ↔
      ((∃ c ∈ cs, c.1 = d) ∨ (∃ a ∈ amts, a.1 = d) ∨ ∃ o ∈ offs, o.1 = d)) ∧
    (∀ r ∈ moex_bond_info_cf cs amts offs,
      r.coupon = fillDash (srcCoupon cs r.event_date) ∧
      r.amt = fillDash (srcAmort amts r.event_date) ∧
      r.offer = fillDash (srcOffer offs r.event_date) ∧
      r.offer_type = fillDash (srcOfferKind offs r.event_date)) ∧
    ((moex_bond_info_cf cs amts offs).map (fun r => r.event_date)).Nodup ∧
    List.Pairwise (fun a b : CashFlowRow => Date.leb a.event_date b.event_date = true)
      (moex_bond_info_cf cs amts offs) := by
  refine ⟨?_, ?_, info_cf_keys_nodup hc ha ho, info_cf_sorted cs amts offs⟩
  · intro d
    have hiff : (∃ r ∈ moex_bond_info_cf cs amts offs, r.event_date = d) ↔
        ∃ w ∈ mergeOffers (mergeCouponsAmort cs amts) offs, w.event_date = d := by
      constructor
      · rintro ⟨r, hr, rfl⟩
        obtain ⟨w, hw, rfl⟩ := (mem_info_cf_iff cs amts offs r).mp hr
        exact ⟨w, hw, rfl⟩
      · rintro ⟨w, hw, rfl⟩
        exact ⟨fillRow w, (mem_info_cf_iff cs amts offs (fillRow w)).mpr ⟨w, hw, rfl⟩, rfl⟩
    rw [hiff, mergeOffers_key_iff, mergeCouponsAmort_key_iff, or_assoc]
  · intro r hr
    obtain ⟨w, hw, rfl⟩ := (mem_info_cf_iff cs amts offs r).mp hr
    obtain ⟨h1, h2, h3, h4⟩ := merged_fields hc ha ho hw
    exact ⟨by rw [show (fillRow w).coupon = fillDash w.coupon from rfl, h1]; rfl,
      by rw [show (fillRow w).amt = fillDash w.amt from rfl, h2]; rfl,
      by rw [show (fillRow w).offer = fillDash w.offer from rfl, h3]; rfl,
      by rw [show (fillRow w).offer_type = fillDash w.offer_type from rfl, h4]; rfl⟩


/-- Witness for C6 at the spec's example: a coupon-only record and an
amortization-only record sharing 2025-06-01 yield a single row. -/
theorem c6_witness :
    ((moex_bond_info_cf [(⟨2025, 6, 1⟩, some 5)] [(⟨2025, 6, 1⟩, some 100)] []).map
        (fun r => r.event_date)).Nodup :=
  (c6_outer_merge [(⟨2025, 6, 1⟩, some 5)] [(⟨2025, 6, 1⟩, some 100)] []
    (by decide) (by decide) (by decide)).2.2.1

/-- C9 (amended): for input streams whose dates are distinct within each
stream, the builder's schedule is strictly increasing by event date, each date
unique.  (Without that proviso the claim fails: see the counterexample.) -/
theorem c9_strictly_increasing (cs : List CouponRec) (amts : List AmortRec)
    (offs : List OfferRec)
    (hc : (cs.map Prod.fst).Nodup) (ha : (amts.map Prod.fst).Nodup)
    (ho : (offs.map (fun o => o.1)).Nodup) :
    List.Pairwise (fun a b : CashFlowRow => Date.lexLt a.event_date b.event_date = true)
      (moex_bond_info_cf cs amts offs) ∧
      ((moex_bond_info_cf cs amts offs).map (fun r => r.event_date)).Nodup := by
  have hn := info_cf_keys_nodup hc ha ho
  have hs := info_cf_sorted cs amts offs
  have hn' : List.Pairwise (fun a b : CashFlowRow => a.event_date ≠ b.event_date)
      (moex_bond_info_cf cs amts offs) := List.pairwise_map.mp hn
  refine ⟨(hs.and hn').imp ?_, hn⟩
  rintro a b ⟨hle, hne⟩
  unfold Date.lexLt
  rw [hle, beq_eq_false_iff_ne.mpr hne]
  rfl

/-- Witness for C9 (amended) at the two-stream one-date example. -/
theorem c9_witness :
    List.Pairwise (fun a b : CashFlowRow => Date.lexLt a.event_date b.event_date = true)
      (moex_bond_info_cf [(⟨2025, 6, 1⟩, some 5)] [(⟨2025, 6, 1⟩, some 100)] []) :=
  (c9_strictly_increasing [(⟨2025, 6, 1⟩, some 5)] [(⟨2025, 6, 1⟩, some 100)] []
    (by decide) (by decide) (by decide)).1

/-- Counterexample for C9: a single source stream with two records on the same
date survives the pandas merges as two rows, so the schedule has a duplicated
date and is not strictly increasing. -/
theorem c9_counterexample :
    (moex_bond_info_cf [(⟨2025, 6, 1⟩, some 5), (⟨2025, 6, 1⟩, some 7)] [] []).map
        (fun r => r.event_date) = [⟨2025, 6, 1⟩, ⟨2025, 6, 1⟩] ∧
      ¬((moex_bond_info_cf [(⟨2025, 6, 1⟩, some 5), (⟨2025, 6, 1⟩, some 7)] [] []).map
          (fun r => r.event_date)).Nodup := by
  constructor
  · rfl
  · decide

/-! Lemmas about the modelled day count and net present value. -/

lemma yearFrac_self (d : Date) : yearFrac d d = 0 := by
  unfold yearFrac
  rw [if_pos rfl]
  simp

lemma yearFrac_example : yearFrac ⟨2024, 1, 1⟩ ⟨2025, 1, 1⟩ = 1 := by
  unfold yearFrac
  rw [if_neg (by decide)]
  show ((Date.ord ⟨2024 + 1, 1, 1⟩ : ℚ) - (Date.ord ⟨2024, 1, 1⟩ : ℚ)) / ((daysInYear 2024 : Int) : ℚ)
      + (((2025 : Int) - 2024 - 1 : Int) : ℚ)
      + (((Date.ord ⟨2025, 1, 1⟩ : ℚ)) - (Date.ord ⟨2025, 1, 1⟩ : ℚ)) / ((daysInYear 2025 : Int) : ℚ) = 1
  rw [show ((2024 : Int) + 1) = 2025 from by decide]
  rw [show Date.ord ⟨2025, 1, 1⟩ = 739252 from by decide,
    show Date.ord ⟨2024, 1, 1⟩ = 738886 from by decide,
    show daysInYear 2024 = 366 from by decide,
    show daysInYear 2025 = 365 from by decide]
  norm_num

lemma discount_term_le {t : ℚ} (ht : 0 < t) {a : ℚ} (ha : 0 ≤ a) {r₁ r₂ : ℝ}
    (h1 : -1 < r₁) (hlt : r₁ < r₂) :
    (a : ℝ) * (1 + r₂) ^ (-(t : ℝ)) ≤ (a : ℝ) * (1 + r₁) ^ (-(t : ℝ)) := by
  have hb1 : (0 : ℝ) < 1 + r₁ := by linarith
  have hb2 : (0 : ℝ) < 1 + r₂ := by linarith
  have ht' : (0 : ℝ) < (t : ℝ) := by exact_mod_cast ht
  have hpow : (1 + r₁) ^ (t : ℝ) ≤ (1 + r₂) ^ (t : ℝ) :=
    Real.rpow_le_rpow hb1.le (by linarith) ht'.le
  have hpos1 : (0 : ℝ) < (1 + r₁) ^ (t : ℝ) := Real.rpow_pos_of_pos hb1 _
  rw [Real.rpow_neg hb1.le, Real.rpow_neg hb2.le]
  exact mul_le_mul_of_nonneg_left (inv_anti₀ hpos1 hpow) (by exact_mod_cast ha)

lemma discount_term_lt {t : ℚ} (ht : 0 < t) {a : ℚ} (ha : 0 < a) {r₁ r₂ : ℝ}
    (h1 : -1 < r₁) (hlt : r₁ < r₂) :
    (a : ℝ) * (1 + r₂) ^ (-(t : ℝ)) < (a : ℝ) * (1 + r₁) ^ (-(t : ℝ)) := by
  have hb1 : (0 : ℝ) < 1 + r₁ := by linarith
  have hb2 : (0 : ℝ) < 1 + r₂ := by linarith
  have ht' : (0 : ℝ) < (t : ℝ) := by exact_mod_cast ht
  have hpow : (1 + r₁) ^ (t : ℝ) < (1 + r₂) ^ (t : ℝ) :=
    Real.rpow_lt_rpow hb1.le (by linarith) ht'
  have hpos1 : (0 : ℝ) < (1 + r₁) ^ (t : ℝ) := Real.rpow_pos_of_pos hb1 _
  rw [Real.rpow_neg hb1.le, Real.rpow_neg hb2.le]
  exact mul_lt_mul_of_pos_left (inv_strictAnti₀ hpos1 hpow) (by exact_mod_cast ha)

lemma npvAux_le (today : Date) {r₁ r₂ : ℝ} (h1 : -1 < r₁) (hlt : r₁ < r₂) :
    ∀ ps : List (Date × ℚ), (∀ p ∈ ps, 0 ≤ p.2 ∧ 0 < yearFrac today p.1) →
      npvAux today r₂ ps ≤ npvAux today r₁ ps := by
  intro ps
  induction ps with
  | nil =>
    intro _
    simp [npvAux]
  | cons p ps ih =>
    intro hps
    simp only [npvAux]
    have hp := hps p (List.mem_cons_self p ps)
    exact add_le_add (discount_term_le hp.2 hp.1 h1 hlt)
      (ih fun q hq => hps q (List.mem_cons_of_mem p hq))

lemma npvAux_lt (today : Date) {r₁ r₂ : ℝ} (h1 : -1 < r₁) (hlt : r₁ < r₂) :
    ∀ ps : List (Date × ℚ), (∀ p ∈ ps, 0 ≤ p.2 ∧ 0 < yearFrac today p.1) →
      (∃ p ∈ ps, 0 < p.2) → npvAux today r₂ ps < npvAux today r₁ ps := by
  intro ps
  induction ps with
  | nil =>
    rintro _ ⟨p, hp, _⟩
    simp at hp
  | cons p ps ih =>
    rintro hps ⟨q, hq, hqpos⟩
    simp only [npvAux]
    have hp := hps p (List.mem_cons_self p ps)
    rcases List.mem_cons.mp hq with rfl | hq'
    · exact add_lt_add_of_lt_of_le (discount_term_lt hp.2 hqpos h1 hlt)
        (npvAux_le today h1 hlt ps fun s hs => hps s (List.mem_cons_of_mem _ hs))
    · exact add_lt_add_of_le_of_lt (discount_term_le hp.2 hp.1 h1 hlt)
        (ih (fun s hs => hps s (List.mem_cons_of_mem _ hs)) ⟨q, hq', hqpos⟩)

lemma npv_cons (today : Date) (a : ℚ) (ds : List Date) (amts : List ℚ) (r : ℝ) :
    npv today (today :: ds) (a :: amts) r = (a : ℝ) + npvAux today r (ds.zip amts) := by
  unfold npv
  rw [List.zip_cons_cons]
  simp only [npvAux]
  rw [yearFrac_self]
  norm_num

/-- The modelled net present value has at most one root above `-1` when all
future amounts are nonnegative with positive year fractions and at least one
future amount is positive. -/
lemma npv_root_unique (today : Date) (a : ℚ) (ds : List Date) (amts : List ℚ)
    (hps : ∀ p ∈ ds.zip amts, 0 ≤ p.2 ∧ 0 < yearFrac today p.1)
    (hex : ∃ p ∈ ds.zip amts, 0 < p.2)
    {r₁ r₂ : ℝ} (h1 : -1 < r₁) (h2 : -1 < r₂)
    (hz1 : npv today (today :: ds) (a :: amts) r₁ = 0)
    (hz2 : npv today (today :: ds) (a :: amts) r₂ = 0) : r₁ = r₂ := by
  rw [npv_cons] at hz1 hz2
  rcases lt_trichotomy r₁ r₂ with hlt | heq | hlt
  · exfalso
    have := npvAux_lt today h1 hlt (ds.zip amts) hps hex
    linarith
  · exact heq
  · exfalso
    have := npvAux_lt today h2 hlt (ds.zip amts) hps hex
    linarith

/-! The concrete single-period example. -/

lemma example_pre :
    moex_bond_yield_pre ⟨2024, 1, 1⟩ [("FACEVALUE", .num 1000), ("ACCRUEDINT", .num 0)]
      [⟨⟨2025, 1, 1⟩, .val 50, .val 1000, .dash, .dash⟩] 100 =
      .ok ([⟨2024, 1, 1⟩, ⟨2025, 1, 1⟩],
           [-100 / 100 * 1000 - 0,
            rowAmount ⟨⟨2025, 1, 1⟩, some 50, some 1000, none, none⟩]) := by
  rw [moex_pre_ok ⟨2024, 1, 1⟩ [("FACEVALUE", .num 1000), ("ACCRUEDINT", .num 0)]
    [⟨⟨2025, 1, 1⟩, .val 50, .val 1000, .dash, .dash⟩] 100 1000 0
    (by decide) (by decide) rfl rfl]
  rfl

lemma example_valid :
    xirrValid [-100 / 100 * 1000 - 0,
      rowAmount ⟨⟨2025, 1, 1⟩, some 50, some 1000, none, none⟩] = true := by
  unfold xirrValid rowAmount
  simp only [List.any_cons, List.any_nil, Bool.or_false, Bool.and_eq_true, Bool.or_eq_true,
    decide_eq_true_eq, Option.getD_some]
  constructor
  · right
    norm_num
  · left
    norm_num

lemma example_npv :
    npv ⟨2024, 1, 1⟩ [⟨2024, 1, 1⟩, ⟨2025, 1, 1⟩]
      [-100 / 100 * 1000 - 0, rowAmount ⟨⟨2025, 1, 1⟩, some 50, some 1000, none, none⟩]
      (1 / 20) = 0 := by
  unfold npv
  simp only [List.zip_cons_cons, List.zip_nil_right, npvAux]
  rw [yearFrac_self, yearFrac_example,
    show rowAmount ⟨⟨2025, 1, 1⟩, some 50, some 1000, none, none⟩ = 1050 from by
      unfold rowAmount
      norm_num]
  push_cast
  rw [neg_zero, Real.rpow_zero, Real.rpow_neg_one]
  norm_num

lemma pyRound2dp_five : pyRound2dp ((1 : ℝ) / 20 * 100) = 5 := by
  unfold pyRound2dp
  rw [if_pos (show (1 : ℝ) / 20 * 100 * 100 - ⌊(1 : ℝ) / 20 * 100 * 100⌋ < 1 / 2 from by
    norm_num)]
  norm_num

/-- The model admits the outcome 5.00 at the spec's example. -/
lemma modelYield_example :
    ModelYield ⟨2024, 1, 1⟩ [("FACEVALUE", .num 1000), ("ACCRUEDINT", .num 0)]
      [⟨⟨2025, 1, 1⟩, .val 50, .val 1000, .dash, .dash⟩] 100 (Except.ok 5) := by
  simp only [ModelYield, example_pre]
  rw [if_pos example_valid]
  refine ⟨1 / 20, by norm_num, example_npv, ?_⟩
  rw [pyRound2dp_five]

/-- C7: at purchase date 2024-01-01, price 100, face value 1000, accrued
interest 0 and a single future event at 2025-01-01 with coupon 50 and
amortization 1000, the solve returns exactly 5.00 percent (the year fraction
over the leap year 2024 is 366/366 = 1 and 1050/1.05 = 1000), through the same
construction and root-finder call as every other schedule: the model holds of
the outcome 5.00 and admits no other outcome. -/
theorem c7_single_period_example :
    ModelYield ⟨2024, 1, 1⟩ [("FACEVALUE", .num 1000), ("ACCRUEDINT", .num 0)]
      [⟨⟨2025, 1, 1⟩, .val 50, .val 1000, .dash, .dash⟩] 100 (Except.ok 5) ∧
      ∀ out, ModelYield ⟨2024, 1, 1⟩ [("FACEVALUE", .num 1000), ("ACCRUEDINT", .num 0)]
        [⟨⟨2025, 1, 1⟩, .val 50, .val 1000, .dash, .dash⟩] 100 out → out = Except.ok 5 := by
  refine ⟨modelYield_example, ?_⟩
  intro out h
  simp only [ModelYield, example_pre] at h
  rw [if_pos example_valid] at h
  obtain ⟨r, hr, hnz, ho⟩ := h
  have hzip : ([(⟨2025, 1, 1⟩ : Date)].zip
      [rowAmount ⟨⟨2025, 1, 1⟩, some 50, some 1000, none, none⟩]) =
      [((⟨2025, 1, 1⟩ : Date), rowAmount ⟨⟨2025, 1, 1⟩, some 50, some 1000, none, none⟩)] := rfl
  have hru : r = 1 / 20 := by
    refine npv_root_unique ⟨2024, 1, 1⟩ (-100 / 100 * 1000 - 0) [⟨2025, 1, 1⟩]
      [rowAmount ⟨⟨2025, 1, 1⟩, some 50, some 1000, none, none⟩] ?_ ?_ hr (by norm_num)
      hnz example_npv
    · rw [hzip]
      intro p hp
      rw [List.mem_singleton] at hp
      subst hp
      constructor
      · show (0 : ℚ) ≤ rowAmount ⟨⟨2025, 1, 1⟩, some 50, some 1000, none, none⟩
        unfold rowAmount
        norm_num
      · show (0 : ℚ) < yearFrac ⟨2024, 1, 1⟩ ⟨2025, 1, 1⟩
        rw [yearFrac_example]
        norm_num
    · rw [hzip]
      refine ⟨_, List.mem_singleton_self _, ?_⟩
      show (0 : ℚ) < rowAmount ⟨⟨2025, 1, 1⟩, some 50, some 1000, none, none⟩
      unfold rowAmount
      norm_num
  rw [ho, hru, pyRound2dp_five]

/-- C8 (amended): with the clock fixed — the purchase date the code reads from
`date.today()` held equal — the solve is a deterministic function of its frame
and price inputs: whenever the instrument facts parse, the net outflow is
positive and every filtered event has nonnegative amount and positive year
fraction, any two outcomes of the model coincide (the discounted NPV is
strictly decreasing in the rate, so the root and hence the rounded yield is
unique; every error path is equally determined). -/
theorem c8_determinism (today : Date) (df_nfo : NfoDF) (df_cf : List CashFlowRow)
    (price fv ai : ℚ) (out₁ out₂ : Except Err ℝ)
    (hfv : getFloat df_nfo "FACEVALUE" = some fv)
    (hai : getFloat df_nfo "ACCRUEDINT" = some ai)
    (houtflow : 0 < price / 100 * fv + ai)
    (hpos : ∀ s ∈ futureRows today (df_cf.map replaceDash),
      0 ≤ rowAmount s ∧ 0 < yearFrac today s.event_date)
    (h₁ : ModelYield today df_nfo df_cf price out₁)
    (h₂ : ModelYield today df_nfo df_cf price out₂) :
    out₁ = out₂ := by
  by_cases hcond : (couponMissing (df_cf.map replaceDash) ||
      offersPresent (df_cf.map replaceDash)) = true
  · have hpre : moex_bond_yield_pre today df_nfo df_cf price = .error .cantCalculateYTM :=
      (pre_cant_iff today df_nfo df_cf price).mpr hcond
    simp only [ModelYield, hpre] at h₁ h₂
    rw [h₁, h₂]
  · rw [Bool.or_eq_true, not_or] at hcond
    have hchk : couponMissing (df_cf.map replaceDash) = false :=
      Bool.eq_false_iff.mpr hcond.1
    have hoff : offersPresent (df_cf.map replaceDash) = false :=
      Bool.eq_false_iff.mpr hcond.2
    have hpre := moex_pre_ok today df_nfo df_cf price fv ai hchk hoff hfv hai
    simp only [ModelYield, hpre] at h₁ h₂
    by_cases hval : xirrValid ((-price / 100 * fv - ai) ::
        (futureRows today (df_cf.map replaceDash)).map rowAmount) = true
    · rw [if_pos hval] at h₁ h₂
      obtain ⟨r₁, hr₁, hnz₁, ho₁⟩ := h₁
      obtain ⟨r₂, hr₂, hnz₂, ho₂⟩ := h₂
      have hzip : ((futureRows today (df_cf.map replaceDash)).map
            (fun r => r.event_date)).zip
            ((futureRows today (df_cf.map replaceDash)).map rowAmount) =
          (futureRows today (df_cf.map replaceDash)).map
            (fun s => (s.event_date, rowAmount s)) := List.zip_map' _ _ _
      have hps : ∀ p ∈ ((futureRows today (df_cf.map replaceDash)).map
            (fun r => r.event_date)).zip
            ((futureRows today (df_cf.map replaceDash)).map rowAmount),
          0 ≤ p.2 ∧ 0 < yearFrac today p.1 := by
        rw [hzip]
        intro p hp
        rw [List.mem_map] at hp
        obtain ⟨s, hs, rfl⟩ := hp
        exact ⟨(hpos s hs).1, (hpos s hs).2⟩
      have hex : ∃ p ∈ ((futureRows today (df_cf.map replaceDash)).map
            (fun r => r.event_date)).zip
            ((futureRows today (df_cf.map replaceDash)).map rowAmount), 0 < p.2 := by
        have hany : ((-price / 100 * fv - ai) ::
            (futureRows today (df_cf.map replaceDash)).map rowAmount).any
              (fun a => decide (0 < a)) = true := by
          unfold xirrValid at hval
          exact (Bool.and_eq_true _ _).mp hval |>.1
        rw [List.any_eq_true] at hany
        obtain ⟨a, hamem, hapos⟩ := hany
        rw [decide_eq_true_eq] at hapos
        rcases List.mem_cons.mp hamem with rfl | hatail
        · exfalso
          linarith
        · rw [List.mem_map] at hatail
          obtain ⟨s, hs, rfl⟩ := hatail
          rw [hzip]
          exact ⟨(s.event_date, rowAmount s), List.mem_map_of_mem _ hs, hapos⟩
      have hru := npv_root_unique today (-price / 100 * fv - ai)
        ((futureRows today (df_cf.map replaceDash)).map (fun r => r.event_date))
        ((futureRows today (df_cf.map replaceDash)).map rowAmount)
        hps hex hr₁ hr₂ hnz₁ hnz₂
      rw [ho₁, ho₂, hru]
    · rw [if_neg hval] at h₁ h₂
      rw [h₁, h₂]

/-- Witness for C8 (amended) at the single-period example, both runs giving
5.00. -/
theorem c8_witness : (Except.ok (5 : ℝ) : Except Err ℝ) = Except.ok (5 : ℝ) :=
  c8_determinism ⟨2024, 1, 1⟩ [("FACEVALUE", .num 1000), ("ACCRUEDINT", .num 0)]
    [⟨⟨2025, 1, 1⟩, .val 50, .val 1000, .dash, .dash⟩] 100 1000 0
    (Except.ok 5) (Except.ok 5) rfl rfl (by norm_num)
    (by
      intro s hs
      have hseq : s = ⟨⟨2025, 1, 1⟩, some 50, some 1000, none, none⟩ := by
        have hfr : futureRows ⟨2024, 1, 1⟩
            ([(⟨⟨2025, 1, 1⟩, .val 50, .val 1000, .dash, .dash⟩ : CashFlowRow)].map
              replaceDash) =
            [⟨⟨2025, 1, 1⟩, some 50, some 1000, none, none⟩] := rfl
        rw [hfr] at hs
        exact List.mem_singleton.mp hs
      subst hseq
      constructor
      · show (0 : ℚ) ≤ rowAmount ⟨⟨2025, 1, 1⟩, some 50, some 1000, none, none⟩
        unfold rowAmount
        norm_num
      · show (0 : ℚ) < yearFrac ⟨2024, 1, 1⟩ ⟨2025, 1, 1⟩
        rw [yearFrac_example]
        norm_num)
    modelYield_example modelYield_example

/-- Counterexample for C8: with the declared inputs (frames and price) held
bit-identical, moving the hidden input `date.today()` across the event date
changes the outcome — an accepted solve on the earlier day, the root-finder's
invalid-payments failure on the later day — so the result is not a function of
the declared inputs alone. -/
theorem c8_counterexample :
    moex_bond_yield_checked ⟨2024, 6, 1⟩ [("FACEVALUE", .num 1000), ("ACCRUEDINT", .num 0)]
        [⟨⟨2025, 1, 1⟩, .val 50, .val 1000, .dash, .dash⟩] 100 ≠
      moex_bond_yield_checked ⟨2026, 6, 1⟩ [("FACEVALUE", .num 1000), ("ACCRUEDINT", .num 0)]
        [⟨⟨2025, 1, 1⟩, .val 50, .val 1000, .dash, .dash⟩] 100 := by
  have hpre1 : moex_bond_yield_pre ⟨2024, 6, 1⟩
      [("FACEVALUE", .num 1000), ("ACCRUEDINT", .num 0)]
      [⟨⟨2025, 1, 1⟩, .val 50, .val 1000, .dash, .dash⟩] 100 =
      .ok ([⟨2024, 6, 1⟩, ⟨2025, 1, 1⟩],
           [-100 / 100 * 1000 - 0,
            rowAmount ⟨⟨2025, 1, 1⟩, some 50, some 1000, none, none⟩]) := by
    rw [moex_pre_ok ⟨2024, 6, 1⟩ [("FACEVALUE", .num 1000), ("ACCRUEDINT", .num 0)]
      [⟨⟨2025, 1, 1⟩, .val 50, .val 1000, .dash, .dash⟩] 100 1000 0
      (by decide) (by decide) rfl rfl]
    rfl
  have hpre2 : moex_bond_yield_pre ⟨2026, 6, 1⟩
      [("FACEVALUE", .num 1000), ("ACCRUEDINT", .num 0)]
      [⟨⟨2025, 1, 1⟩, .val 50, .val 1000, .dash, .dash⟩] 100 =
      .ok ([⟨2026, 6, 1⟩], [-100 / 100 * 1000 - 0]) := by
    rw [moex_pre_ok ⟨2026, 6, 1⟩ [("FACEVALUE", .num 1000), ("ACCRUEDINT", .num 0)]
      [⟨⟨2025, 1, 1⟩, .val 50, .val 1000, .dash, .dash⟩] 100 1000 0
      (by decide) (by decide) rfl rfl]
    rfl
  have h1 : moex_bond_yield_checked ⟨2024, 6, 1⟩
      [("FACEVALUE", .num 1000), ("ACCRUEDINT", .num 0)]
      [⟨⟨2025, 1, 1⟩, .val 50, .val 1000, .dash, .dash⟩] 100 =
      .ok ([⟨2024, 6, 1⟩, ⟨2025, 1, 1⟩],
           [-100 / 100 * 1000 - 0,
            rowAmount ⟨⟨2025, 1, 1⟩, some 50, some 1000, none, none⟩]) := by
    simp only [moex_bond_yield_checked, hpre1]
    rw [if_pos example_valid]
  have h2 : moex_bond_yield_checked ⟨2026, 6, 1⟩
      [("FACEVALUE", .num 1000), ("ACCRUEDINT", .num 0)]
      [⟨⟨2025, 1, 1⟩, .val 50, .val 1000, .dash, .dash⟩] 100 =
      .error .invalidPayments := by
    simp only [moex_bond_yield_checked, hpre2]
    rw [if_neg (by rw [xirrValid_single]; exact Bool.false_ne_true)]
  rw [h1, h2]
  simp

end MoexBonds
